import Mathlib

/-!
A shallow embedding of the Objective-C metadata parser in
`Source/PLCrashAsyncObjCSection.cpp` (PLCrashReporter), together with proofs
about its behaviour.

Modelling conventions:
* Machine integers (`uint32_t`, `pl_vm_address_t`, …) are modelled as `Nat`;
  the operations the code performs on them (comparisons, `&`, `>>`, `%`) do
  not overflow, so no explicit `% 2^w` is needed.
* Byte-order swaps (`image->byteorder->swap…`) are modelled as the identity
  (a native-endian image), as the claims under study are independent of
  endianness.
* Cross-task reads (`plcrash_async_task_memcpy`), section remaps
  (`plcrash_async_mobject_remap_address`) and lazy string initialisation
  (`plcrash_async_macho_string_init`) are modelled as oracle functions from
  target addresses to results, packaged in environment structures.  A failed
  remap is `none`, a failed read or string init carries its error code.
* String handles are identified with the target address of the string.
-/

namespace PLCrashObjC

/-- Error codes; the subset of `plcrash_error_t` used by
`PLCrashAsyncObjCSection.cpp`. -/
inductive plcrash_error where
  | ESUCCESS
  | EUNKNOWN
  | EINVAL
  | EACCESS
  | ENOTFOUND
  deriving DecidableEq

open plcrash_error

/-- A result of a fallible cross-task read. -/
abbrev FetchResult (α : Type) := Except plcrash_error α

/-- One invocation of a `plcrash_async_objc_found_method_cb` callback:
the arguments `(isClassMethod, className, methodName, imp)` that the parser
hands to the callback.  String handles are identified with the target
addresses of the strings. -/
structure MethodInfo where
  isClassMethod : Bool
  className : Nat
  methodName : Nat
  imp : Nat
  deriving DecidableEq

/-- `static uint32_t CLS_NO_METHOD_ARRAY = 0x4000;` -/
def CLS_NO_METHOD_ARRAY : Nat := 0x4000

/-- `static uint32_t END_OF_METHODS_LIST = -1;` (as a `uint32_t`). -/
def END_OF_METHODS_LIST : Nat := 0xFFFFFFFF

/-- `static const uint32_t RW_REALIZED = (1<<31);` -/
def RW_REALIZED : Nat := 2 ^ 31

/-- `static const uint32_t RW_COPIED_RO = (1<<27);` -/
def RW_COPIED_RO : Nat := 2 ^ 27

/-! ## The Class-RO cache (`cache_index` / `cache_lookup` / `cache_set`)

The fields `classCacheSize`, `classCacheKeys`, `classCacheValues` of
`plcrash_async_objc_cache_t`.  The two parallel arrays are modelled as total
functions `Nat → Nat`; `allocated` records whether `classCacheKeys != NULL`
(the lazily `vm_allocate`d arena of 1024 entries, zero-initialised).  In all
reachable states `classCacheSize` is 1024 when the arena is allocated and 0
otherwise, which is how `size` is defined here. -/

structure ROCache where
  allocated : Bool
  classCacheKeys : Nat → Nat
  classCacheValues : Nat → Nat

/-- `context->classCacheSize`: 1024 once the arena is allocated, else 0. -/
def ROCache.size (c : ROCache) : Nat := if c.allocated then 1024 else 0

/-- The all-empty, allocated cache (the state right after the successful
`vm_allocate` of zero-filled pages). -/
def ROCache.empty : ROCache := ⟨true, fun _ => 0, fun _ => 0⟩

/-- `cache_index`: `(key >> 2) % context->classCacheSize`. -/
def cache_index (c : ROCache) (key : Nat) : Nat :=
  (key >>> 2) % c.size

/-- `cache_lookup`: the value stored for `key`, or 0 if none. -/
def cache_lookup (c : ROCache) (key : Nat) : Nat :=
  if 0 < c.size then
    if c.classCacheKeys (cache_index c key) = key then
      c.classCacheValues (cache_index c key)
    else 0
  else 0

/-- The write step of `cache_set` once the arena exists: write the bucket
only if its key slot is 0 (first writer wins). -/
def cache_insert (c : ROCache) (key value : Nat) : ROCache :=
  if c.classCacheKeys (cache_index c key) = 0 then
    ⟨c.allocated,
     fun j => if j = cache_index c key then key else c.classCacheKeys j,
     fun j => if j = cache_index c key then value else c.classCacheValues j⟩
  else c

/-- `cache_set`: lazily allocate the arena (the success of `vm_allocate` is
the oracle `allocOK`; on failure the cache is left unused), then insert. -/
def cache_set (c : ROCache) (key value : Nat) (allocOK : Bool) : ROCache :=
  if c.allocated then cache_insert c key value
  else if allocOK then cache_insert ROCache.empty key value
  else c

/-! ## `map_sections` (the section-map cache)

The fields `lastImage`, `objcConstMobjInitialized`, `classMobjInitialized`,
`catMobjInitialized`, `objcDataMobjInitialized` of
`plcrash_async_objc_cache_t`.  Images are identified by opaque tokens
(`Nat`); the four `plcrash_async_macho_map_section` calls for the current
image have their results given by a `MapResults` oracle. -/

structure MapSectionsState where
  lastImage : Option Nat
  objcConstMobjInitialized : Bool
  classMobjInitialized : Bool
  catMobjInitialized : Bool
  objcDataMobjInitialized : Bool
  deriving DecidableEq

/-- Results of `plcrash_async_macho_map_section` on the presented image for
`__objc_const`, `__objc_classlist`, `__objc_catlist`, `__objc_data`. -/
structure MapResults where
  constRes : plcrash_error
  classRes : plcrash_error
  catRes : plcrash_error
  dataRes : plcrash_error

/-- `free_mapped_sections`: free every initialized memory object and clear
its flag.  (`lastImage` is untouched by this helper.) -/
def free_mapped_sections (s : MapSectionsState) : MapSectionsState :=
  ⟨s.lastImage, false, false, false, false⟩

/-- `map_sections`: return success at once if `image == context->lastImage`;
otherwise free the previous mappings, null `lastImage`, map the four
sections in order (stopping at the first failure), and set `lastImage` only
after all four succeed. -/
def map_sections (image : Nat) (r : MapResults) (s : MapSectionsState) :
    plcrash_error × MapSectionsState :=
  if s.lastImage = some image then (ESUCCESS, s)
  else
    let s0 : MapSectionsState := ⟨none, false, false, false, false⟩
    if r.constRes ≠ ESUCCESS then (r.constRes, s0)
    else
      let s1 : MapSectionsState := ⟨none, true, false, false, false⟩
      if r.classRes ≠ ESUCCESS then (r.classRes, s1)
      else
        let s2 : MapSectionsState := ⟨none, true, true, false, false⟩
        if r.catRes ≠ ESUCCESS then (r.catRes, s2)
        else
          let s3 : MapSectionsState := ⟨none, true, true, true, false⟩
          if r.dataRes ≠ ESUCCESS then (r.dataRes, s3)
          else (ESUCCESS, ⟨some image, true, true, true, true⟩)

/-! ## `plcrash_async_objc_parse` (the unified parser)

Only the `gotObjC2Info` latch of the cache matters here.  The results of the
ObjC1 attempt (`pl_async_objc_parse_from_module_info`) and of the ObjC2
attempt (`pl_async_objc_parse_from_data_section`) on the presented image are
oracles `objc1Res` / `objc2Res`; the function returns the error it would
return together with the updated latch. -/
def plcrash_async_objc_parse (got : Bool) (objc1Res objc2Res : plcrash_error) :
    plcrash_error × Bool :=
  let err := if got = false then objc1Res else ENOTFOUND
  if err = ENOTFOUND then
    (objc2Res, if objc2Res = ESUCCESS then true else got)
  else (err, got)

/-- The `gotObjC2Info` latch after a sequence of `plcrash_async_objc_parse`
calls on one cache, each with its own pair of attempt results. -/
def runParseSeq : Bool → List (plcrash_error × plcrash_error) → Bool
  | got, [] => got
  | got, p :: rest =>
      runParseSeq (plcrash_async_objc_parse got p.1 p.2).2 rest

/-! ## `plcrash_async_objc_find_method` (the two-pass best-IMP search)

Each of the two `plcrash_async_objc_parse` invocations is a walk that hands
the callback a sequence of methods in traversal order and either completes
(`ESUCCESS`) or aborts with the first error encountered.  Such a walk is
modelled by a list of `WalkEvent`s; the two invocations read target memory
independently, so each pass gets its own event list. -/

inductive WalkEvent where
  | found (m : MethodInfo)
  | fail (e : plcrash_error)

/-- Run a walk: fold the callback over the methods handed out, stopping at
the first failure event and returning its error. -/
def runWalk {σ : Type} (cb : σ → MethodInfo → σ) : σ → List WalkEvent → σ × plcrash_error
  | s, [] => (s, ESUCCESS)
  | s, .found m :: rest => runWalk cb (cb s m) rest
  | s, .fail e :: _ => (s, e)

/-- An error-free enumeration handing out exactly the methods `ms`. -/
def methodEvents (ms : List MethodInfo) : List WalkEvent :=
  ms.map .found

/-- `pl_async_objc_find_method_search_callback`: update `bestIMP` with `imp`
when `imp >= bestIMP && imp <= searchIMP`. -/
def pl_async_objc_find_method_search_callback (searchIMP bestIMP imp : Nat) : Nat :=
  if bestIMP ≤ imp ∧ imp ≤ searchIMP then imp else bestIMP

/-- The state of `pl_async_objc_find_method_call_context`: `outerActive`
models `outerCallback != NULL`, and `emitted` records the invocations of the
outer (user) callback. -/
structure CallContext where
  searchIMP : Nat
  outerActive : Bool
  emitted : List MethodInfo
  deriving DecidableEq

/-- `pl_async_objc_find_method_call_callback`: fire the outer callback on
the first method whose `imp` equals `searchIMP`, then null it out. -/
def pl_async_objc_find_method_call_callback (st : CallContext) (m : MethodInfo) :
    CallContext :=
  if m.imp = st.searchIMP ∧ st.outerActive = true then
    ⟨st.searchIMP, false, st.emitted ++ [m]⟩
  else st

/-- Pass 1 of `plcrash_async_objc_find_method`: the search context after the
first walk (`bestIMP` initialised to 0), with the walk's status. -/
def findMethodPass1 (searchIMP : Nat) (ev : List WalkEvent) : Nat × plcrash_error :=
  runWalk (fun b m => pl_async_objc_find_method_search_callback searchIMP b m.imp) 0 ev

/-- `plcrash_async_objc_find_method`: pass 1 computes `bestIMP`; a failed
pass-1 walk propagates its error; `bestIMP == 0` yields `PLCRASH_ENOTFOUND`;
otherwise pass 2 re-walks, firing the user callback on the first exact
match, and its status is returned unchanged.  The result pairs the returned
error with the list of user-callback invocations. -/
def plcrash_async_objc_find_method (searchIMP : Nat) (ev1 ev2 : List WalkEvent) :
    plcrash_error × List MethodInfo :=
  let r1 := findMethodPass1 searchIMP ev1
  if r1.2 ≠ ESUCCESS then (r1.2, [])
  else if r1.1 = 0 then (ENOTFOUND, [])
  else
    let r2 := runWalk pl_async_objc_find_method_call_callback ⟨r1.1, true, []⟩ ev2
    (r2.2, r2.1.emitted)

/-- `plcrash_async_objc_find_method` when both enumerations are error-free
and hand out the same method sequence `ms` (an image whose walk succeeds and
whose memory is unchanged between the two passes). -/
def find_method_on_list (searchIMP : Nat) (ms : List MethodInfo) :
    plcrash_error × List MethodInfo :=
  plcrash_async_objc_find_method searchIMP (methodEvents ms) (methodEvents ms)

/-- Spec-side definition (from the spec's words, for claim C1): enumerate
all methods into a list and select the maximum `imp` that is `≤ target`,
taking 0 when there is none. -/
def bestMatchSpec (searchIMP : Nat) (ms : List MethodInfo) : Nat :=
  ((ms.map (fun m => m.imp)).filter (fun i => i ≤ searchIMP)).foldl max 0

/-! ## `pl_async_parse_obj1_class` (the ObjC1 class walker)

The environment packages the external reads the function performs:
`readPtr` is the 4-byte `plcrash_async_task_memcpy` of a method-list pointer
at the cursor, `readMethodList` the copy of a `pl_objc1_method_list` header
(`obsolete`, `count`), `readMethod` the copy of a `pl_objc1_method`, and
`stringAt` the status of `plcrash_async_macho_string_init` at an address.
The result records the error returned, the callback invocations, and the
log of target addresses passed to `plcrash_async_task_memcpy` (in order).
The unbounded `while (true)` loop over the method-list array is given fuel;
`none` means the fuel ran out before the loop did. -/

structure pl_objc1_method where
  name : Nat
  types : Nat
  imp : Nat

structure pl_objc1_class where
  isa : Nat
  super : Nat
  name : Nat
  version : Nat
  info : Nat
  instance_size : Nat
  ivars : Nat
  methods : Nat
  cache : Nat
  protocols : Nat

structure Objc1Env where
  readPtr : Nat → FetchResult Nat
  readMethodList : Nat → FetchResult (Nat × Nat)
  readMethod : Nat → FetchResult pl_objc1_method
  stringAt : Nat → plcrash_error

/-- The inner `for (uint32_t i = 0; i < count; i++)` loop over one method
list: read each `pl_objc1_method` at `thisListPtr + sizeof(methodList) +
i * sizeof(method)` (8 and 12 bytes), init its name string, and invoke the
callback; any failure aborts with that error.  Arguments are the current
index and the number of iterations left. -/
def objc1MethodLoop (env : Objc1Env) (clsName : Nat) (isMeta : Bool)
    (thisListPtr : Nat) : Nat → Nat → plcrash_error × List MethodInfo × List Nat
  | _, 0 => (ESUCCESS, [], [])
  | i, n + 1 =>
    let methodPtr := thisListPtr + 8 + i * 12
    match env.readMethod methodPtr with
    | .error e => (e, [], [methodPtr])
    | .ok m =>
      if env.stringAt m.name = ESUCCESS then
        let r := objc1MethodLoop env clsName isMeta thisListPtr (i + 1) n
        (r.1, ⟨isMeta, clsName, m.name, m.imp⟩ :: r.2.1, methodPtr :: r.2.2)
      else (env.stringAt m.name, [], [methodPtr])

/-- The `while (true)` loop of `pl_async_parse_obj1_class`, with fuel
bounding the number of iterations.  Arguments are the fuel and the current
`methodListCursor`. -/
def objc1ListLoop (env : Objc1Env) (clsName : Nat) (isMeta : Bool)
    (hasMultipleMethodLists : Bool) :
    Nat → Nat → Option (plcrash_error × List MethodInfo × List Nat)
  | 0, _ => none
  | fuel + 1, cursor =>
    if hasMultipleMethodLists then
      -- read the next method-list pointer from the cursor
      match env.readPtr cursor with
      | .error e => some (e, [], [cursor])
      | .ok thisListPtr =>
        if thisListPtr = 0 ∨ thisListPtr = END_OF_METHODS_LIST then
          some (ESUCCESS, [], [cursor])
        else
          match env.readMethodList thisListPtr with
          | .error e => some (e, [], [cursor, thisListPtr])
          | .ok hdr =>
            let r := objc1MethodLoop env clsName isMeta thisListPtr 0 hdr.2
            if r.1 ≠ ESUCCESS then some (r.1, r.2.1, cursor :: thisListPtr :: r.2.2)
            else
              match objc1ListLoop env clsName isMeta hasMultipleMethodLists fuel (cursor + 4) with
              | none => none
              | some r2 =>
                some (r2.1, r.2.1 ++ r2.2.1, cursor :: thisListPtr :: (r.2.2 ++ r2.2.2))
    else
      -- CLS_NO_METHOD_ARRAY set: the cursor itself is the single list
      let thisListPtr := cursor
      if thisListPtr = 0 then some (ESUCCESS, [], [])
      else
        match env.readMethodList thisListPtr with
        | .error e => some (e, [], [thisListPtr])
        | .ok hdr =>
          let r := objc1MethodLoop env clsName isMeta thisListPtr 0 hdr.2
          some (r.1, r.2.1, thisListPtr :: r.2.2)

/-- `pl_async_parse_obj1_class`: init the class-name string from
`cls.name`, decide `hasMultipleMethodLists` from `CLS_NO_METHOD_ARRAY` in
`cls.info`, and run the method-list loop starting at `cls.methods`. -/
def pl_async_parse_obj1_class (env : Objc1Env) (cls : pl_objc1_class)
    (isMetaClass : Bool) (fuel : Nat) :
    Option (plcrash_error × List MethodInfo × List Nat) :=
  if env.stringAt cls.name ≠ ESUCCESS then some (env.stringAt cls.name, [], [])
  else
    let hasMultipleMethodLists := cls.info &&& CLS_NO_METHOD_ARRAY = 0
    objc1ListLoop env cls.name isMetaClass hasMultipleMethodLists fuel cls.methods

/-! ## The ObjC2 walk (`pl_async_objc_parse_objc2_class`,
`pl_async_objc_parse_objc2_method_list`, `pl_async_objc_parse_objc2_category`
and the loops of `pl_async_objc_parse_from_data_section`)

The environment gives the mapped section contents and the read oracles:
* `classlistMem` — the pointer array obtained by remapping the whole
  `__objc_classlist` section (`classPtrs_32` / `classPtrs_64`);
* `catlistMem` — likewise for `__objc_catlist` (`catPtrs`); the source
  only ever uses its length (see claim C3);
* `dataClass` — `plcrash_async_mobject_remap_address` into `__objc_data`
  for a class-sized range;
* `dataCategory` — the same remap for a category-sized range (the category
  contents are irrelevant because `pl_async_objc_parse_objc2_category` is a
  stub in the source, so the range is modelled as `Unit`);
* `readRW` / `remapRO` / `copyRO` — the `class_rw_t` cross-task read, the
  `__objc_const` remap of a `class_ro_t`, and its cross-task-copy fallback;
* `methodListAt` — the two `__objc_const` remaps of a method list (header
  and body) at an address, already decoded into its `(name, imp)` records;
  `none` models a failed remap (`PLCRASH_EINVAL`).  The `entsize & ~3`
  stride arithmetic is internal to that decoding and not needed by any
  claim over this function;
* `stringAt` — `plcrash_async_macho_string_init` status at an address. -/

structure pl_objc2_class where
  isa : Nat
  superclass : Nat
  cache : Nat
  vtable : Nat
  data_rw : Nat
  deriving DecidableEq

structure pl_objc2_class_data_rw where
  flags : Nat
  version : Nat
  data_ro : Nat

structure pl_objc2_class_data_ro where
  flags : Nat
  instanceStart : Nat
  instanceSize : Nat
  ivarLayout : Nat
  name : Nat
  baseMethods : Nat
  baseProtocols : Nat
  ivars : Nat
  weakIvarLayout : Nat
  baseProperties : Nat

structure Objc2Env where
  arm64 : Bool
  classlistMem : List Nat
  catlistMem : List Nat
  classRemapOK : Bool
  catRemapOK : Bool
  dataClass : Nat → Option pl_objc2_class
  dataCategory : Nat → Option Unit
  readRW : Nat → FetchResult pl_objc2_class_data_rw
  remapRO : Nat → Option pl_objc2_class_data_ro
  copyRO : Nat → FetchResult pl_objc2_class_data_ro
  methodListAt : Nat → Option (List (Nat × Nat))
  stringAt : Nat → plcrash_error

/-- `TAGGED_ISA(x)`: `x & 0x1fffffff8` on arm64, identity elsewhere. -/
def TAGGED_ISA (arm64 : Bool) (x : Nat) : Nat :=
  if arm64 then x &&& 0x1fffffff8 else x

/-- The entry loop of `pl_async_objc_parse_objc2_method_list`: for each
record, init the method-name string (failure aborts with that error, the
callbacks already fired staying fired) and invoke the callback with the
method's name and IMP. -/
def objc2MethodEntries (env : Objc2Env) (class_name : Nat) (is_meta_class : Bool) :
    List (Nat × Nat) → plcrash_error × List MethodInfo
  | [] => (ESUCCESS, [])
  | (namePtr, imp) :: rest =>
    if env.stringAt namePtr = ESUCCESS then
      let r := objc2MethodEntries env class_name is_meta_class rest
      (r.1, ⟨is_meta_class, class_name, namePtr, imp⟩ :: r.2)
    else (env.stringAt namePtr, [])

/-- `pl_async_objc_parse_objc2_method_list`: remap the list at
`method_list_addr` through `__objc_const` (failure is `PLCRASH_EINVAL`) and
walk its entries. -/
def pl_async_objc_parse_objc2_method_list (env : Objc2Env) (class_name : Nat)
    (is_meta_class : Bool) (method_list_addr : Nat) :
    plcrash_error × List MethodInfo :=
  match env.methodListAt method_list_addr with
  | none => (EINVAL, [])
  | some entries => objc2MethodEntries env class_name is_meta_class entries

/-- `cls->data_rw & ~(pl_vm_address_t)3`: the low two flag bits cleared. -/
def objc2DataPtr (cls : pl_objc2_class) : Nat :=
  cls.data_rw - cls.data_rw % 4

/-- The tail of `pl_async_objc_parse_objc2_class` once a readable
`class_ro_t` is in hand: init the class-name string from `cls_data_ro->name`,
return success at once if `baseMethods` is 0, else parse the method list. -/
def objc2ClassBody (env : Objc2Env) (cache : ROCache)
    (ro : pl_objc2_class_data_ro) (is_meta_class : Bool) :
    plcrash_error × List MethodInfo × ROCache :=
  if env.stringAt ro.name ≠ ESUCCESS then (env.stringAt ro.name, [], cache)
  else if ro.baseMethods = 0 then (ESUCCESS, [], cache)
  else
    let r := pl_async_objc_parse_objc2_method_list env ro.name is_meta_class ro.baseMethods
    (r.1, r.2, cache)

/-- `pl_async_objc_parse_objc2_class`: consult the Class-RO cache at the
masked `data_rw` pointer.  On a miss, cross-task-read the `class_rw_t`;
an unrealized class (`RW_REALIZED` unset) is `PLCRASH_ENOTFOUND`; resolve
the `class_ro_t` (heap copy when `RW_COPIED_RO`, else `__objc_const` remap)
and only then add the cache entry.  On a hit, try the remap first and fall
back to a cross-task copy.  Returns the error, the callback invocations and
the updated cache. -/
def pl_async_objc_parse_objc2_class (env : Objc2Env) (cache : ROCache)
    (cls : pl_objc2_class) (is_meta_class : Bool) :
    plcrash_error × List MethodInfo × ROCache :=
  let data_ptr := objc2DataPtr cls
  if cache_lookup cache data_ptr = 0 then
    match env.readRW data_ptr with
    | .error e => (e, [], cache)
    | .ok cls_data_rw =>
      if cls_data_rw.flags &&& RW_REALIZED = 0 then (ENOTFOUND, [], cache)
      else
        let cached_data_ro_addr := cls_data_rw.data_ro
        let roRes : FetchResult pl_objc2_class_data_ro :=
          if cls_data_rw.flags &&& RW_COPIED_RO ≠ 0 then env.copyRO cached_data_ro_addr
          else
            match env.remapRO cached_data_ro_addr with
            | some ro => .ok ro
            | none => .error EINVAL
        match roRes with
        | .error e => (e, [], cache)
        | .ok ro =>
          objc2ClassBody env (cache_set cache data_ptr cached_data_ro_addr true) ro is_meta_class
  else
    let cached_data_ro_addr := cache_lookup cache data_ptr
    match env.remapRO cached_data_ro_addr with
    | some ro => objc2ClassBody env cache ro is_meta_class
    | none =>
      match env.copyRO cached_data_ro_addr with
      | .ok ro => objc2ClassBody env cache ro is_meta_class
      | .error _ => (EINVAL, [], cache)

/-- The class loop of `pl_async_objc_parse_from_data_section` (the
`for (unsigned i = 0; i < classCount; i++)` over `classlistMem`): remap each
class pointer through `__objc_data`, parse the class, then remap
`TAGGED_ISA(isa)` and parse the metaclass; any non-success return aborts the
loop with that error.  `acc` accumulates the callback invocations so far. -/
def objc2ClassLoop (env : Objc2Env) :
    List Nat → ROCache → List MethodInfo → plcrash_error × List MethodInfo × ROCache
  | [], cache, acc => (ESUCCESS, acc, cache)
  | ptr :: rest, cache, acc =>
    match env.dataClass ptr with
    | none => (EINVAL, acc, cache)
    | some cls =>
      let r1 := pl_async_objc_parse_objc2_class env cache cls false
      if r1.1 ≠ ESUCCESS then (r1.1, acc ++ r1.2.1, r1.2.2)
      else
        match env.dataClass (TAGGED_ISA env.arm64 cls.isa) with
        | none => (EINVAL, acc ++ r1.2.1, r1.2.2)
        | some metaclass =>
          let r2 := pl_async_objc_parse_objc2_class env r1.2.2 metaclass true
          if r2.1 ≠ ESUCCESS then (r2.1, acc ++ r1.2.1 ++ r2.2.1, r2.2.2)
          else objc2ClassLoop env rest r2.2.2 (acc ++ r1.2.1 ++ r2.2.1)

/-- `pl_async_objc_parse_objc2_category`: a stub in the source (`// TODO`),
always `PLCRASH_ESUCCESS`. -/
def pl_async_objc_parse_objc2_category (_cat : Unit) : plcrash_error :=
  ESUCCESS

/-- The category loop of `pl_async_objc_parse_from_data_section`.  The
iteration count comes from the `__objc_catlist` length, but the pointer at
index `i` is read from the `classPtrs` view (the source builds `catPtrs_32`
/ `catPtrs_64` from `classPtrs`, not from `catPtrs`).  Arguments are the
index, the iterations left, and the accumulated list of category pointers
handed to category parsing. -/
def objc2CatLoop (env : Objc2Env) : Nat → Nat → List Nat → plcrash_error × List Nat
  | _, 0, acc => (ESUCCESS, acc)
  | i, n + 1, acc =>
    let ptr := env.classlistMem.getD i 0
    match env.dataCategory ptr with
    | none => (EINVAL, acc ++ [ptr])
    | some cat =>
      if pl_async_objc_parse_objc2_category cat ≠ ESUCCESS then
        (pl_async_objc_parse_objc2_category cat, acc ++ [ptr])
      else objc2CatLoop env (i + 1) n (acc ++ [ptr])

/-- `pl_async_objc_parse_from_data_section` after a successful
`map_sections` (the mapping step itself is the subject of claim C4 and is
modelled separately): remap the class list (failure is `PLCRASH_EINVAL`),
run the class loop, remap the category list likewise, and run the category
loop.  The result also exposes the list of category pointers handed to
category parsing. -/
def pl_async_objc_parse_from_data_section (env : Objc2Env) (cache : ROCache) :
    plcrash_error × List MethodInfo × ROCache × List Nat :=
  if env.classRemapOK = false then (EINVAL, [], cache, [])
  else
    let r := objc2ClassLoop env env.classlistMem cache []
    if r.1 ≠ ESUCCESS then (r.1, r.2.1, r.2.2, [])
    else if env.catRemapOK = false then (EINVAL, r.2.1, r.2.2, [])
    else
      let rc := objc2CatLoop env 0 env.catlistMem.length []
      (rc.1, r.2.1, r.2.2, rc.2)

/-! ## Lemmas about the two-pass search -/

theorem runWalk_methodEvents {σ : Type} (cb : σ → MethodInfo → σ) (s : σ)
    (ms : List MethodInfo) :
    runWalk cb s (methodEvents ms) = (ms.foldl cb s, ESUCCESS) := by
  induction ms generalizing s with
  | nil => rfl
  | cons m rest ih => simpa [methodEvents, runWalk, List.foldl] using ih (cb s m)

theorem runWalk_methodEvents_append {σ : Type} (cb : σ → MethodInfo → σ) (s : σ)
    (ms : List MethodInfo) (rest : List WalkEvent) :
    runWalk cb s (methodEvents ms ++ rest) = runWalk cb (ms.foldl cb s) rest := by
  induction ms generalizing s with
  | nil => rfl
  | cons m tl ih => simpa [methodEvents, runWalk, List.foldl] using ih (cb s m)

theorem search_callback_eq_max (searchIMP b imp : Nat) :
    pl_async_objc_find_method_search_callback searchIMP b imp =
      if imp ≤ searchIMP then max b imp else b := by
  unfold pl_async_objc_find_method_search_callback
  by_cases h1 : b ≤ imp <;> by_cases h2 : imp ≤ searchIMP
  · simp [h1, h2, Nat.max_eq_right h1]
  · simp [h1, h2]
  · simp [h1, h2, Nat.max_eq_left (Nat.le_of_not_le h1)]
  · simp [h1, h2]

theorem search_foldl_eq_filter_max (searchIMP : Nat) (ms : List MethodInfo) :
    ∀ b : Nat,
      ms.foldl (fun b m => pl_async_objc_find_method_search_callback searchIMP b m.imp) b =
        ((ms.map (fun m => m.imp)).filter (fun i => i ≤ searchIMP)).foldl max b := by
  induction ms with
  | nil => intro b; rfl
  | cons m rest ih =>
      intro b
      by_cases h : m.imp ≤ searchIMP
      · rw [List.foldl_cons, search_callback_eq_max, if_pos h, List.map_cons,
          List.filter_cons_of_pos (by simpa using h), List.foldl_cons]
        exact ih (max b m.imp)
      · rw [List.foldl_cons, search_callback_eq_max, if_neg h, List.map_cons,
          List.filter_cons_of_neg (by simpa using h)]
        exact ih b

/-- Pass 1 over an error-free enumeration computes exactly the spec-side
best match (the maximum enumerated `imp` that is `≤ searchIMP`, or 0). -/
theorem findMethodPass1_methodEvents (searchIMP : Nat) (ms : List MethodInfo) :
    findMethodPass1 searchIMP (methodEvents ms) = (bestMatchSpec searchIMP ms, ESUCCESS) := by
  unfold findMethodPass1 bestMatchSpec
  rw [runWalk_methodEvents, search_foldl_eq_filter_max]

theorem call_foldl_inactive (b : Nat) (acc : List MethodInfo) (ms : List MethodInfo) :
    ms.foldl pl_async_objc_find_method_call_callback ⟨b, false, acc⟩ = ⟨b, false, acc⟩ := by
  induction ms with
  | nil => rfl
  | cons m rest ih => simpa [List.foldl, pl_async_objc_find_method_call_callback] using ih

theorem call_foldl_active (b : Nat) (ms : List MethodInfo) : ∀ acc : List MethodInfo,
    ms.foldl pl_async_objc_find_method_call_callback ⟨b, true, acc⟩ =
      match ms.find? (fun m => m.imp = b) with
      | none => ⟨b, true, acc⟩
      | some m => ⟨b, false, acc ++ [m]⟩ := by
  induction ms with
  | nil => intro acc; rfl
  | cons m rest ih =>
      intro acc
      by_cases h : m.imp = b
      · simp [List.foldl, pl_async_objc_find_method_call_callback, h, List.find?,
          call_foldl_inactive]
      · simp [List.foldl, pl_async_objc_find_method_call_callback, h, List.find?, ih]

theorem foldl_max_mem (l : List Nat) : ∀ b : Nat, l.foldl max b = b ∨ l.foldl max b ∈ l := by
  induction l with
  | nil => intro b; exact Or.inl rfl
  | cons x xs ih =>
      intro b
      rcases ih (max b x) with h | h
      · rcases max_choice b x with hb | hx
        · exact Or.inl (by rw [List.foldl, h, hb])
        · exact Or.inr (by rw [List.foldl, h, hx]; exact List.mem_cons_self x xs)
      · exact Or.inr (List.mem_cons_of_mem x h)

theorem foldl_max_zero (l : List Nat) (h : ∀ x ∈ l, x = 0) : l.foldl max 0 = 0 := by
  induction l with
  | nil => rfl
  | cons x xs ih =>
      have hx := h x (List.mem_cons_self x xs)
      simp only [List.foldl, hx, Nat.max_self, Nat.zero_max]
      exact ih fun y hy => h y (List.mem_cons_of_mem x hy)

/-- When the spec-side best match is nonzero, some enumerated method has
exactly that `imp` (and it is `≤ searchIMP`). -/
theorem bestMatchSpec_mem (searchIMP : Nat) (ms : List MethodInfo)
    (h : bestMatchSpec searchIMP ms ≠ 0) :
    ∃ m ∈ ms, m.imp = bestMatchSpec searchIMP ms := by
  rcases foldl_max_mem ((ms.map (fun m => m.imp)).filter (fun i => i ≤ searchIMP)) 0 with
    h0 | hmem
  · exact absurd (show bestMatchSpec searchIMP ms = 0 from h0) h
  · have h2 : bestMatchSpec searchIMP ms ∈ ms.map (fun m => m.imp) :=
      List.mem_of_mem_filter hmem
    rcases List.mem_map.mp h2 with ⟨m, hm, him⟩
    exact ⟨m, hm, him⟩

/-- The behaviour of `plcrash_async_objc_find_method` on an error-free,
repeatable enumeration, characterised by the spec-side best match. -/
theorem find_method_on_list_eq (searchIMP : Nat) (ms : List MethodInfo) :
    find_method_on_list searchIMP ms =
      if bestMatchSpec searchIMP ms = 0 then (ENOTFOUND, [])
      else (ESUCCESS, (ms.find? (fun m => m.imp = bestMatchSpec searchIMP ms)).toList) := by
  unfold find_method_on_list plcrash_async_objc_find_method
  rw [findMethodPass1_methodEvents]
  by_cases hb : bestMatchSpec searchIMP ms = 0
  · simp [hb]
  · simp only [hb, if_neg, ite_false, if_false]
    rw [runWalk_methodEvents, call_foldl_active]
    rcases hfind : ms.find? (fun m => m.imp = bestMatchSpec searchIMP ms) with _ | m
    · simp [hfind]
    · simp [hfind]

theorem find?_imp_eq_some (ms : List MethodInfo) (b : Nat)
    (h : ∃ m ∈ ms, m.imp = b) :
    ∃ m, ms.find? (fun x => x.imp = b) = some m := by
  cases hfind : ms.find? (fun x => x.imp = b) with
  | some m => exact ⟨m, rfl⟩
  | none =>
      rcases h with ⟨m, hm, him⟩
      have h2 := List.find?_eq_none.mp hfind m hm
      simp [him] at h2

theorem find?_imp_congr (b : Nat) (ms1 : List MethodInfo) : ∀ ms2 : List MethodInfo,
    ms1.map (fun m => m.imp) = ms2.map (fun m => m.imp) →
    (ms1.find? (fun m => m.imp = b)).map (fun m => m.imp) =
      (ms2.find? (fun m => m.imp = b)).map (fun m => m.imp) := by
  induction ms1 with
  | nil =>
      intro ms2 h
      have h2 : ms2 = [] := by
        cases ms2 with
        | nil => rfl
        | cons m t => simp at h
      subst h2; rfl
  | cons m1 t1 ih =>
      intro ms2 h
      cases ms2 with
      | nil => simp at h
      | cons m2 t2 =>
          simp only [List.map_cons, List.cons.injEq] at h
          by_cases hb : m1.imp = b
          · have hb2 : m2.imp = b := h.1 ▸ hb
            simp [List.find?, hb, hb2, h.1]
          · have hb2 : ¬m2.imp = b := fun hc => hb (h.1.symm ▸ hc)
            simpa [List.find?, hb, hb2] using ih t2 h.2

/-- C1: `plcrash_async_objc_find_method`'s pass 1 computes the maximum
enumerated `imp` that is `≤` the target (initialised to 0, ties accepted);
a best of 0 is returned as `PLCRASH_ENOTFOUND` with the user callback never
invoked; otherwise pass 2 invokes the user callback exactly once, on the
first enumerated method whose `imp` equals the best — i.e. enumerating all
methods and selecting `max(imp) ≤ target` yields exactly the tuple
`find_method` emits. -/
theorem claim_C1_find_method_two_pass (searchIMP : Nat) (ms : List MethodInfo) :
    (bestMatchSpec searchIMP ms = 0 →
      find_method_on_list searchIMP ms = (ENOTFOUND, [])) ∧
    (bestMatchSpec searchIMP ms ≠ 0 →
      (∃ m, ms.find? (fun m => m.imp = bestMatchSpec searchIMP ms) = some m) ∧
      find_method_on_list searchIMP ms =
        (ESUCCESS, (ms.find? (fun m => m.imp = bestMatchSpec searchIMP ms)).toList)) := by
  constructor
  · intro h; rw [find_method_on_list_eq, if_pos h]
  · intro h
    exact ⟨find?_imp_eq_some ms _ (bestMatchSpec_mem searchIMP ms h),
      by rw [find_method_on_list_eq, if_neg h]⟩

/-- C1 witness: a concrete one-method image where the best match is 4. -/
theorem claim_C1_find_method_two_pass_witness :
    find_method_on_list 10 [⟨false, 1, 2, 4⟩] = (ESUCCESS, [⟨false, 1, 2, 4⟩]) := by
  have h := (claim_C1_find_method_two_pass 10 [⟨false, 1, 2, 4⟩]).2 (by decide)
  exact h.2.trans (by decide)

/-- C8: when every enumerated method with `imp ≤ target` has `imp = 0`,
`find_method` returns `PLCRASH_ENOTFOUND` and never invokes the user
callback — a genuine method at address 0 is indistinguishable from no
match, because pass 1 initialises its best value to 0 and a final best of 0
maps to not-found. -/
theorem claim_C8_zero_imp_never_found (searchIMP : Nat) (ms : List MethodInfo)
    (h : ∀ m ∈ ms, m.imp ≤ searchIMP → m.imp = 0) :
    find_method_on_list searchIMP ms = (ENOTFOUND, []) := by
  have hz : bestMatchSpec searchIMP ms = 0 := by
    have hall : ∀ x ∈ (ms.map (fun m => m.imp)).filter (fun i => i ≤ searchIMP), x = 0 := by
      intro x hx
      have hx2 := List.mem_filter.mp hx
      rcases List.mem_map.mp hx2.1 with ⟨m, hm, him⟩
      rw [← him]
      exact h m hm (by rw [him]; simpa using hx2.2)
    exact foldl_max_zero _ hall
  rw [find_method_on_list_eq, if_pos hz]

/-- C8 witness: a one-method image whose only method has IMP 0. -/
theorem claim_C8_zero_imp_never_found_witness :
    find_method_on_list 5 [⟨false, 1, 2, 0⟩] = (ENOTFOUND, []) :=
  claim_C8_zero_imp_never_found 5 [⟨false, 1, 2, 0⟩] (by decide)

/-- C9: `find_method` returns the status of the pass-2 walk unchanged, so
when pass 1 succeeds with a nonzero best and the pass-2 walk hands out a
method with the best IMP and then fails, the user callback has fired and
yet `find_method` returns that error — a non-success return does not imply
the callback was never invoked. -/
theorem claim_C9_error_after_callback (searchIMP : Nat) (ev1 : List WalkEvent)
    (ms : List MethodInfo) (e : plcrash_error) (tail : List WalkEvent)
    (hok : (findMethodPass1 searchIMP ev1).2 = ESUCCESS)
    (hb : (findMethodPass1 searchIMP ev1).1 ≠ 0)
    (hm : ∃ m ∈ ms, m.imp = (findMethodPass1 searchIMP ev1).1)
    (_he : e ≠ ESUCCESS) :
    (plcrash_async_objc_find_method searchIMP ev1
        (methodEvents ms ++ WalkEvent.fail e :: tail)).1 = e ∧
    (plcrash_async_objc_find_method searchIMP ev1
        (methodEvents ms ++ WalkEvent.fail e :: tail)).2 ≠ [] := by
  unfold plcrash_async_objc_find_method
  rcases hr1 : findMethodPass1 searchIMP ev1 with ⟨b, st⟩
  rw [hr1] at hok hb hm
  simp only at hok hb hm
  subst hok
  rcases find?_imp_eq_some ms b hm with ⟨m, hfind⟩
  simp only [ne_eq, not_true_eq_false, if_false, ite_false, hb,
    runWalk_methodEvents_append, call_foldl_active, hfind, runWalk]
  simp [hb]

/-- C9 witness: pass 1 sees one method at 50; pass 2 hands out the same
method and then fails with `PLCRASH_EINVAL`. -/
theorem claim_C9_error_after_callback_witness :
    (plcrash_async_objc_find_method 100 (methodEvents [⟨false, 1, 2, 50⟩])
        (methodEvents [⟨false, 1, 2, 50⟩] ++ WalkEvent.fail EINVAL :: [])).1 = EINVAL ∧
    (plcrash_async_objc_find_method 100 (methodEvents [⟨false, 1, 2, 50⟩])
        (methodEvents [⟨false, 1, 2, 50⟩] ++ WalkEvent.fail EINVAL :: [])).2 ≠ [] :=
  claim_C9_error_after_callback 100 (methodEvents [⟨false, 1, 2, 50⟩])
    [⟨false, 1, 2, 50⟩] EINVAL [] (by decide) (by decide)
    ⟨⟨false, 1, 2, 50⟩, by simp, by decide⟩ (by decide)

/-- C10: the best IMP computed by pass 1 — and hence the status and the
IMP `find_method` selects — depends only on the sequence of `imp` values
presented to the search callback: two enumerations with the same target and
the same `imp` sequence but arbitrary class names, method names and is-meta
flags give identical results. -/
theorem claim_C10_best_depends_only_on_imps (searchIMP : Nat)
    (ms1 ms2 : List MethodInfo)
    (h : ms1.map (fun m => m.imp) = ms2.map (fun m => m.imp)) :
    (findMethodPass1 searchIMP (methodEvents ms1)).1 =
      (findMethodPass1 searchIMP (methodEvents ms2)).1 ∧
    (find_method_on_list searchIMP ms1).1 = (find_method_on_list searchIMP ms2).1 ∧
    (find_method_on_list searchIMP ms1).2.map (fun m => m.imp) =
      (find_method_on_list searchIMP ms2).2.map (fun m => m.imp) := by
  have hbest : bestMatchSpec searchIMP ms1 = bestMatchSpec searchIMP ms2 := by
    unfold bestMatchSpec; rw [h]
  refine ⟨?_, ?_, ?_⟩
  · rw [findMethodPass1_methodEvents, findMethodPass1_methodEvents]
    simpa using hbest
  · rw [find_method_on_list_eq, find_method_on_list_eq, hbest]
    by_cases hz : bestMatchSpec searchIMP ms2 = 0 <;> simp [hz]
  · rw [find_method_on_list_eq, find_method_on_list_eq, hbest]
    by_cases hz : bestMatchSpec searchIMP ms2 = 0
    · simp [hz]
    · simp only [hz, ite_false, if_false, if_neg hz]
      have hc := find?_imp_congr (bestMatchSpec searchIMP ms2) ms1 ms2 h
      rcases h1 : ms1.find? (fun m => m.imp = bestMatchSpec searchIMP ms2) with _ | m1 <;>
        rcases h2 : ms2.find? (fun m => m.imp = bestMatchSpec searchIMP ms2) with _ | m2 <;>
        rw [h1, h2] at hc ⊢ <;> simp_all

/-- C10 witness: two one-method enumerations differing in names and meta
flag but sharing IMP 4. -/
theorem claim_C10_best_depends_only_on_imps_witness :
    (find_method_on_list 10 [⟨false, 1, 2, 4⟩]).2.map (fun m => m.imp) =
      (find_method_on_list 10 [⟨true, 7, 8, 4⟩]).2.map (fun m => m.imp) :=
  (claim_C10_best_depends_only_on_imps 10 [⟨false, 1, 2, 4⟩] [⟨true, 7, 8, 4⟩]
    (by decide)).2.2

/-! ## Claims about `map_sections`, the Class-RO cache and the unified
parser -/

/-- C4: `map_sections` returns success immediately without remapping when
`cache.lastImage == image`; otherwise `lastImage` is set to the new image
only if all four section mappings succeed, and on any failure `lastImage`
is left null while the slots mapped before the failure remain initialized. -/
theorem claim_C4_map_sections (image : Nat) (r : MapResults) (s : MapSectionsState) :
    (s.lastImage = some image → map_sections image r s = (ESUCCESS, s)) ∧
    (s.lastImage ≠ some image →
      (r.constRes = ESUCCESS → r.classRes = ESUCCESS → r.catRes = ESUCCESS →
        r.dataRes = ESUCCESS →
        map_sections image r s = (ESUCCESS, ⟨some image, true, true, true, true⟩)) ∧
      (r.constRes ≠ ESUCCESS →
        map_sections image r s = (r.constRes, ⟨none, false, false, false, false⟩)) ∧
      (r.constRes = ESUCCESS → r.classRes ≠ ESUCCESS →
        map_sections image r s = (r.classRes, ⟨none, true, false, false, false⟩)) ∧
      (r.constRes = ESUCCESS → r.classRes = ESUCCESS → r.catRes ≠ ESUCCESS →
        map_sections image r s = (r.catRes, ⟨none, true, true, false, false⟩)) ∧
      (r.constRes = ESUCCESS → r.classRes = ESUCCESS → r.catRes = ESUCCESS →
        r.dataRes ≠ ESUCCESS →
        map_sections image r s = (r.dataRes, ⟨none, true, true, true, false⟩))) := by
  refine ⟨fun h => by simp [map_sections, h], fun h => ⟨?_, ?_, ?_, ?_, ?_⟩⟩
  · intro h1 h2 h3 h4; simp [map_sections, h, h1, h2, h3, h4]
  · intro h1; simp [map_sections, h, h1]
  · intro h1 h2; simp [map_sections, h, h1, h2]
  · intro h1 h2 h3; simp [map_sections, h, h1, h2, h3]
  · intro h1 h2 h3 h4; simp [map_sections, h, h1, h2, h3, h4]

/-- C4 witness: presenting image 1 to a cache holding image 2, with all
four mappings succeeding. -/
theorem claim_C4_map_sections_witness :
    map_sections 1 ⟨ESUCCESS, ESUCCESS, ESUCCESS, ESUCCESS⟩
        ⟨some 2, true, true, true, true⟩ =
      (ESUCCESS, ⟨some 1, true, true, true, true⟩) :=
  ((claim_C4_map_sections 1 ⟨ESUCCESS, ESUCCESS, ESUCCESS, ESUCCESS⟩
      ⟨some 2, true, true, true, true⟩).2 (by decide)).1 rfl rfl rfl rfl

/-- C5: on the (allocated) Class-RO cache, `store(k, v)` writes the bucket
at index `(k >> 2) % 1024` iff that bucket's key slot is 0 — a store on an
occupied bucket never mutates the cache (first writer wins) — and
`lookup(k)` returns the bucket's value iff the bucket's key equals `k`,
else 0; hence looking up `k` right after storing it yields `v` when the
bucket was free and the bucket's prior contents (first-stored value or 0)
otherwise. -/
theorem claim_C5_ro_cache_first_writer_wins (c : ROCache) (k v : Nat)
    (h : c.allocated = true) :
    cache_index c k = (k >>> 2) % 1024 ∧
    (c.classCacheKeys (cache_index c k) = 0 →
      (cache_set c k v true).classCacheKeys (cache_index c k) = k ∧
      (cache_set c k v true).classCacheValues (cache_index c k) = v ∧
      ∀ j, j ≠ cache_index c k →
        (cache_set c k v true).classCacheKeys j = c.classCacheKeys j ∧
        (cache_set c k v true).classCacheValues j = c.classCacheValues j) ∧
    (c.classCacheKeys (cache_index c k) ≠ 0 → cache_set c k v true = c) ∧
    (cache_lookup c k =
      if c.classCacheKeys (cache_index c k) = k then
        c.classCacheValues (cache_index c k)
      else 0) ∧
    (cache_lookup (cache_set c k v true) k =
      if c.classCacheKeys (cache_index c k) = 0 then v else cache_lookup c k) := by
  have hsize : c.size = 1024 := by simp [ROCache.size, h]
  have hidx : cache_index c k = (k >>> 2) % 1024 := by simp [cache_index, hsize]
  have hset : cache_set c k v true = cache_insert c k v := by simp [cache_set, h]
  refine ⟨hidx, ?_, ?_, ?_, ?_⟩
  · intro h0
    rw [hset]
    unfold cache_insert
    rw [if_pos h0]
    exact ⟨by simp, by simp, fun j hj => ⟨by simp [hj], by simp [hj]⟩⟩
  · intro h0
    rw [hset]
    unfold cache_insert
    rw [if_neg h0]
  · simp [cache_lookup, hsize]
  · rw [hset]
    unfold cache_insert
    by_cases h0 : c.classCacheKeys (cache_index c k) = 0
    · rw [if_pos h0, if_pos h0]
      simp [cache_lookup, ROCache.size, h, cache_index]
    · rw [if_neg h0, if_neg h0]

/-- C5 witness: storing key 8, value 7 in the fresh allocated cache and
looking it up. -/
theorem claim_C5_ro_cache_first_writer_wins_witness :
    cache_lookup (cache_set ROCache.empty 8 7 true) 8 = 7 := by
  have h := (claim_C5_ro_cache_first_writer_wins ROCache.empty 8 7 rfl).2.2.2.2
  simpa [ROCache.empty, cache_lookup] using h

theorem parse_snd_true (o1 o2 : plcrash_error) :
    (plcrash_async_objc_parse true o1 o2).2 = true := by
  by_cases h : o2 = ESUCCESS <;> simp [plcrash_async_objc_parse, h]

theorem runParseSeq_true (l : List (plcrash_error × plcrash_error)) :
    runParseSeq true l = true := by
  induction l with
  | nil => rfl
  | cons p rest ih => rw [runParseSeq, parse_snd_true]; exact ih

/-- C6: `gotObjC2Info` is monotonic across any sequence of parse calls;
the parser attempts ObjC1 only when the latch is unset (its result is
irrelevant when set), propagates any ObjC1 result other than not-found,
falls through to ObjC2 on not-found, and sets the latch exactly when the
ObjC2 attempt runs and returns success. -/
theorem claim_C6_gotObjC2Info_latch (got : Bool) (o1 o2 : plcrash_error) :
    (∀ l : List (plcrash_error × plcrash_error), runParseSeq true l = true) ∧
    (∀ o1' : plcrash_error,
      plcrash_async_objc_parse true o1 o2 = plcrash_async_objc_parse true o1' o2) ∧
    (o1 ≠ ENOTFOUND → plcrash_async_objc_parse false o1 o2 = (o1, false)) ∧
    (plcrash_async_objc_parse false ENOTFOUND o2 =
      (o2, if o2 = ESUCCESS then true else false)) ∧
    ((plcrash_async_objc_parse got o1 o2).2 = true ↔
      (got = true ∨
        ((if got = false then o1 else ENOTFOUND) = ENOTFOUND ∧ o2 = ESUCCESS))) := by
  refine ⟨runParseSeq_true, ?_, ?_, ?_, ?_⟩
  · intro o1'; rfl
  · intro h1; simp [plcrash_async_objc_parse, h1]
  · by_cases h2 : o2 = ESUCCESS <;> simp [plcrash_async_objc_parse, h2]
  · cases got <;> by_cases h1 : o1 = ENOTFOUND <;> by_cases h2 : o2 = ESUCCESS <;>
      simp [plcrash_async_objc_parse, h1, h2]

/-- C6 witness: with the latch unset, an ObjC1 result of `PLCRASH_EINVAL`
is propagated and the latch stays unset. -/
theorem claim_C6_gotObjC2Info_latch_witness :
    plcrash_async_objc_parse false EINVAL ESUCCESS = (EINVAL, false) :=
  ((claim_C6_gotObjC2Info_latch false EINVAL ESUCCESS).2.2).1 (by decide)

/-! ## Claims about the ObjC1 and ObjC2 walkers -/

/-- A concrete ObjC1 environment in which every cross-task read fails with
`PLCRASH_EUNKNOWN` (in particular the read at address 0) and every string
initialises. -/
def objc1EnvNullFail : Objc1Env :=
  ⟨fun _ => .error EUNKNOWN, fun _ => .error EUNKNOWN, fun _ => .error EUNKNOWN,
   fun _ => ESUCCESS⟩

/-- A concrete ObjC1 environment in which the 4-byte read at any address
yields 0 and every string initialises. -/
def objc1EnvNullOk : Objc1Env :=
  ⟨fun _ => .ok 0, fun _ => .error EUNKNOWN, fun _ => .error EUNKNOWN,
   fun _ => ESUCCESS⟩

/-- A concrete ObjC1 class (name string at 5) whose `methods` field is 0
and whose `info` field has `CLS_NO_METHOD_ARRAY` unset. -/
def objc1ClassNoMethods : pl_objc1_class :=
  ⟨0, 0, 5, 0, 0, 0, 0, 0, 0, 0⟩

/-- C7 counterexample: for a class with `methods == 0` and
`CLS_NO_METHOD_ARRAY` unset, the parse does NOT terminate immediately — it
issues a cross-task read of a method-list pointer at target address 0 (the
read log is `[0]`, not empty), and when that read fails the class parse
returns the read's error rather than succeeding. -/
theorem claim_C7_counterexample :
    objc1ClassNoMethods.methods = 0 ∧
    objc1ClassNoMethods.info &&& CLS_NO_METHOD_ARRAY = 0 ∧
    pl_async_parse_obj1_class objc1EnvNullFail objc1ClassNoMethods false 1 =
      some (EUNKNOWN, [], [0]) := by
  exact ⟨rfl, rfl, rfl⟩

/-- C7 (amended): for every ObjC1 class whose `methods` field is 0 and
whose `info` field has `CLS_NO_METHOD_ARRAY` unset (and whose class name
initialises), the parse does not terminate immediately: it enters the
multi-list loop, whose first action is a cross-task read of a method-list
pointer at target address 0.  If that read fails, the class parse returns
the read's error with no callback invoked and read log exactly `[0]`; if
it yields the terminator 0 or `END_OF_METHODS_LIST`, the parse succeeds
with no callback, no further reads, and read log exactly `[0]`.  (A
non-terminator result merely lets the walk continue from the pointer
read.) -/
theorem claim_C7_null_methods_reads_address_zero (env : Objc1Env)
    (cls : pl_objc1_class) (isMeta : Bool) (fuel : Nat)
    (hm : cls.methods = 0) (hi : cls.info &&& CLS_NO_METHOD_ARRAY = 0)
    (hs : env.stringAt cls.name = ESUCCESS) :
    (∀ e, env.readPtr 0 = .error e →
      pl_async_parse_obj1_class env cls isMeta (fuel + 1) = some (e, [], [0])) ∧
    (∀ p, env.readPtr 0 = .ok p → p = 0 ∨ p = END_OF_METHODS_LIST →
      pl_async_parse_obj1_class env cls isMeta (fuel + 1) =
        some (ESUCCESS, [], [0])) := by
  constructor
  · intro e he
    simp [pl_async_parse_obj1_class, hs, hm, hi, objc1ListLoop, he]
  · intro p hp hterm
    rcases hterm with h0 | h0 <;>
      simp [pl_async_parse_obj1_class, hs, hm, hi, objc1ListLoop, hp, h0]

/-- C7 amended-claim witness: the concrete environment whose read at 0
yields the terminator 0. -/
theorem claim_C7_null_methods_reads_address_zero_witness :
    pl_async_parse_obj1_class objc1EnvNullOk objc1ClassNoMethods false 1 =
      some (ESUCCESS, [], [0]) :=
  (claim_C7_null_methods_reads_address_zero objc1EnvNullOk objc1ClassNoMethods
    false 0 rfl rfl rfl).2 0 rfl (Or.inl rfl)

/-- A concrete ObjC2 environment: the classlist holds pointers 1 (a class
whose `class_rw` at 100 is unrealized) and 2 (a class whose `class_rw` at
200 is realized, `class_ro` at 300, class name at 40, and a one-method
list at 500 with method name 41 and IMP 4096). -/
def objc2EnvC2 : Objc2Env :=
  ⟨false,
   [1, 2],
   [],
   true, true,
   fun p =>
     if p = 1 then some ⟨9, 0, 0, 0, 100⟩
     else if p = 2 then some ⟨8, 0, 0, 0, 200⟩
     else none,
   fun _ => some (),
   fun a =>
     if a = 100 then .ok ⟨0, 0, 300⟩
     else if a = 200 then .ok ⟨RW_REALIZED, 0, 300⟩
     else .error EUNKNOWN,
   fun a => if a = 300 then some ⟨0, 0, 0, 0, 40, 500, 0, 0, 0, 0⟩ else none,
   fun _ => .error EUNKNOWN,
   fun a => if a = 500 then some [(41, 4096)] else none,
   fun _ => ESUCCESS⟩

/-- C2 counterexample: in `objc2EnvC2`, the classlist walk hits the
unrealized class first and returns `PLCRASH_ENOTFOUND` with NO callbacks at
all — even though parsing the second (realized) classlist entry alone
emits a method — so the outer walker does not continue past an unrealized
class. -/
theorem claim_C2_counterexample :
    (pl_async_objc_parse_from_data_section objc2EnvC2 ROCache.empty).1 = ENOTFOUND ∧
    (pl_async_objc_parse_from_data_section objc2EnvC2 ROCache.empty).2.1 = [] ∧
    (pl_async_objc_parse_objc2_class objc2EnvC2 ROCache.empty ⟨8, 0, 0, 0, 200⟩
        false).2.1 = [⟨false, 40, 41, 4096⟩] := by
  exact ⟨rfl, rfl, rfl⟩

/-- C2 (amended): when a class's `class_rw` flags have `RW_REALIZED` unset
(on the cache-miss path), parsing that class returns `PLCRASH_ENOTFOUND`
without invoking the callback and without touching the cache; the outer
classlist walker treats this non-success as fatal: it returns
`PLCRASH_ENOTFOUND` immediately, walking no further classlist entries and
emitting no callback for the unrealized class (nor for any later entry). -/
theorem claim_C2_unrealized_class_aborts_walk (env : Objc2Env) (cache : ROCache)
    (cls : pl_objc2_class) (is_meta : Bool) (rw : pl_objc2_class_data_rw)
    (ptr : Nat) (rest : List Nat) (acc : List MethodInfo)
    (hmiss : cache_lookup cache (objc2DataPtr cls) = 0)
    (hrw : env.readRW (objc2DataPtr cls) = .ok rw)
    (hflags : rw.flags &&& RW_REALIZED = 0)
    (hcls : env.dataClass ptr = some cls) :
    pl_async_objc_parse_objc2_class env cache cls is_meta = (ENOTFOUND, [], cache) ∧
    objc2ClassLoop env (ptr :: rest) cache acc = (ENOTFOUND, acc, cache) := by
  have hparse : ∀ b : Bool,
      pl_async_objc_parse_objc2_class env cache cls b = (ENOTFOUND, [], cache) := by
    intro b
    simp [pl_async_objc_parse_objc2_class, hmiss, hrw, hflags]
  exact ⟨hparse is_meta, by simp [objc2ClassLoop, hcls, hparse false]⟩

/-- C2 amended-claim witness: the walk of `objc2EnvC2` starting at the
fresh cache. -/
theorem claim_C2_unrealized_class_aborts_walk_witness :
    objc2ClassLoop objc2EnvC2 [1, 2] ROCache.empty [] =
      (ENOTFOUND, [], ROCache.empty) :=
  (claim_C2_unrealized_class_aborts_walk objc2EnvC2 ROCache.empty ⟨9, 0, 0, 0, 100⟩
    false ⟨0, 0, 300⟩ 1 [2] [] rfl rfl rfl rfl).2

/-- A concrete ObjC2 environment for the category walk: the classlist is
empty while the catlist holds the single pointer 7, and every category
remap succeeds. -/
def objc2EnvC3 : Objc2Env :=
  ⟨false, [], [7], true, true,
   fun _ => none, fun _ => some (),
   fun _ => .error EUNKNOWN, fun _ => none, fun _ => .error EUNKNOWN,
   fun _ => none, fun _ => ESUCCESS⟩

/-- C3: the source builds the `catPtrs_32` / `catPtrs_64` views from
`classPtrs`, so the pointer handed to category parsing at index `i` comes
from the classlist view, not from the mapped `__objc_catlist` contents:
with an empty classlist and a catlist holding the single pointer 7, the
category walk hands category parsing the pointer 0 (the classlist view's
out-of-range default), not 7. -/
theorem claim_C3_category_loop_reads_classPtrs :
    (pl_async_objc_parse_from_data_section objc2EnvC3 ROCache.empty).2.2.2 = [0] ∧
    objc2EnvC3.catlistMem = [7] := by
  exact ⟨rfl, rfl⟩

end PLCrashObjC
